import Mathlib

/-!
# Verification of the Asgardeo/Authsignal flow reconciliation engine

Shallow embedding of the flow reconciliation core of the adapter:

* `src/store/flow-store.ts` — the `FlowRecord` data model;
* `src/store/memory-flow-store.ts` — the in-process store backend
  (lazy TTL expiry on read, lock namespace);
* `src/store/redis-flow-store.ts` — the lock compare-and-delete semantics
  of the networked backend (the `RELEASE_LOCK_SCRIPT` Lua script);
* `src/app.ts` — `mapTrackState`, `toCompletedFlow`, `resolvePendingFlow`
  and the `/api/authenticate` handler state machine;
* `src/auth/authsignal-client.ts` — the retry/backoff loop of
  `HttpAuthsignalClient.request`.

Conventions of the embedding:

* ISO-8601 timestamps (`new Date().toISOString()`) and `Date.now()` values
  are both modelled as a single natural-number clock `now` in milliseconds;
  each handler invocation is given one clock value (the claims under study
  do not depend on sub-call clock drift).
* A call to the external Authsignal service is an oracle function returning
  `Option`; `none` models a thrown error (timeout, transport failure, or a
  non-retryable HTTP failure surfaced by the resilient client).
* `randomUUID()` lock-owner generation is modelled by a counter carried in
  the store state, producing a fresh owner string per acquisition.
* Maps (`Map` objects / Redis keyspace) are modelled as functions
  `String → Option _`.
-/

namespace Authsignal

/-! ## String primitives

Executable models of the JavaScript string operations the source uses
(`toUpperCase`, `toLowerCase`, `trim`, `replaceAll`), defined over the
character list so that concrete runs reduce inside the kernel. -/

/-- `String.prototype.toUpperCase` (ASCII, as used on the vendor state
vocabulary). -/
def strToUpper (s : String) : String := ⟨s.data.map Char.toUpper⟩

/-- `String.prototype.toLowerCase` (ASCII). -/
def strToLower (s : String) : String := ⟨s.data.map Char.toLower⟩

/-- `String.prototype.trim`. -/
def strTrim (s : String) : String :=
  ⟨((s.data.dropWhile Char.isWhitespace).reverse.dropWhile Char.isWhitespace).reverse⟩

/-- `replaceAll` worker over character lists; `fuel` starts at the subject
length, which suffices for the non-empty patterns the source substitutes. -/
def replaceChars (pattern repl : List Char) : Nat → List Char → List Char
  | _, [] => []
  | 0, rest => rest
  | fuel + 1, c :: rest =>
    if pattern.isPrefixOf (c :: rest) then
      repl ++ replaceChars pattern repl fuel (rest.drop (pattern.length - 1))
    else
      c :: replaceChars pattern repl fuel rest

/-- `String.prototype.replaceAll` for a non-empty pattern. -/
def strReplace (s pattern repl : String) : String :=
  ⟨replaceChars pattern.data repl.data s.data.length s.data⟩

/-! ## Data model (`src/store/flow-store.ts`) -/

/-- `FlowOutcome` from `flow-store.ts`: `"SUCCESS" | "FAILED"`. -/
inductive FlowOutcome where
  | SUCCESS
  | FAILED
deriving DecidableEq, Repr

/-- `PendingFlowRecord` from `flow-store.ts` (status `"PENDING"`), with the
`idempotencyKey`/`action` pair that `app.ts` stores and reads on the record.
Timestamps are modelled as `Nat` milliseconds. -/
structure PendingFlowRecord where
  flowId : String
  userId : String
  resumeUrl : String
  tenantHint : Option String
  createdAt : Nat
  updatedAt : Nat
  redirectUrl : String
  idempotencyKey : String
  action : String
deriving DecidableEq, Repr

/-- `CompletedFlowRecord` from `flow-store.ts` (status `"COMPLETED"`). -/
structure CompletedFlowRecord where
  flowId : String
  userId : String
  resumeUrl : String
  tenantHint : Option String
  createdAt : Nat
  updatedAt : Nat
  outcome : FlowOutcome
  failureReason : Option String
deriving DecidableEq, Repr

/-- `FlowRecord = PendingFlowRecord | CompletedFlowRecord`. -/
inductive FlowRecord where
  | pending (p : PendingFlowRecord)
  | completed (c : CompletedFlowRecord)
deriving DecidableEq, Repr

/-- The `flowId` field shared by both record variants. -/
def FlowRecord.flowId : FlowRecord → String
  | .pending p => p.flowId
  | .completed c => c.flowId

/-! ## Memory store backend (`src/store/memory-flow-store.ts`)

`flows` maps a flow id to `(flow, expiresAt)` (`MemoryRecord`); `locks`
maps a flow id to `(owner, expiresAt)` (`MemoryLock`).  `lockCounter`
models the stream of `randomUUID()` owner tokens. -/

structure MemoryFlowStore where
  ttlSeconds : Nat
  flows : String → Option (FlowRecord × Nat)
  locks : String → Option (String × Nat)
  lockCounter : Nat

/-- A store with no flow records and no locks (fresh `MemoryFlowStore`). -/
def MemoryFlowStore.empty (ttlSeconds : Nat) : MemoryFlowStore :=
  ⟨ttlSeconds, fun _ => none, fun _ => none, 0⟩

/-- `pruneExpired`: delete the record for `flowId` when `stored.expiresAt < Date.now()`. -/
def MemoryFlowStore.pruneExpired (s : MemoryFlowStore) (flowId : String) (now : Nat) :
    MemoryFlowStore :=
  match s.flows flowId with
  | none => s
  | some (_, expiresAt) =>
    if expiresAt < now then
      { s with flows := fun k => if k = flowId then none else s.flows k }
    else s

/-- `get`: prune lazily, then read. Returns the (possibly pruned) store and the record. -/
def MemoryFlowStore.get (s : MemoryFlowStore) (flowId : String) (now : Nat) :
    MemoryFlowStore × Option FlowRecord :=
  let s := s.pruneExpired flowId now
  (s, (s.flows flowId).map Prod.fst)

/-- `save`: upsert, with `expiresAt = Date.now() + ttlSeconds * 1000`. -/
def MemoryFlowStore.save (s : MemoryFlowStore) (record : FlowRecord) (now : Nat) :
    MemoryFlowStore :=
  { s with
    flows := fun k =>
      if k = record.flowId then some (record, now + s.ttlSeconds * 1000) else s.flows k }

/-- The owner token produced for the `n`-th `randomUUID()` call. -/
def ownerToken (n : Nat) : String := "owner-" ++ toString n

/-- `acquireLock`: return `null` when a non-expired lock exists
(`existing.expiresAt > now`), otherwise store a fresh owner with
`expiresAt = now + ttlMs` and return it. -/
def MemoryFlowStore.acquireLock (s : MemoryFlowStore) (flowId : String)
    (ttlMs now : Nat) : MemoryFlowStore × Option String :=
  match s.locks flowId with
  | some (_, expiresAt) =>
    if expiresAt > now then (s, none)
    else
      let owner := ownerToken s.lockCounter
      ({ s with
          locks := fun k => if k = flowId then some (owner, now + ttlMs) else s.locks k
          lockCounter := s.lockCounter + 1 }, some owner)
  | none =>
    let owner := ownerToken s.lockCounter
    ({ s with
        locks := fun k => if k = flowId then some (owner, now + ttlMs) else s.locks k
        lockCounter := s.lockCounter + 1 }, some owner)

/-- `releaseLock`: delete the lock entry iff it exists and its owner matches.
Note the source does not consult the lock's `expiresAt` here. -/
def MemoryFlowStore.releaseLock (s : MemoryFlowStore) (flowId owner : String) :
    MemoryFlowStore :=
  match s.locks flowId with
  | some (existingOwner, _) =>
    if existingOwner = owner then
      { s with locks := fun k => if k = flowId then none else s.locks k }
    else s
  | none => s

/-! ## Redis store backend lock semantics (`src/store/redis-flow-store.ts`)

Only the lock keyspace is modelled: keys map to `(value, expiresAt)` where
`expiresAt` is the absolute `PX` deadline.  Redis removes a key once its
deadline is reached, so a read at time `now` sees the key only when
`now < expiresAt`. -/

structure RedisLocks where
  entries : String → Option (String × Nat)

/-- `GET key` at time `now`: expired keys are absent. -/
def RedisLocks.redisGet (st : RedisLocks) (key : String) (now : Nat) : Option String :=
  match st.entries key with
  | some (v, expiresAt) => if now < expiresAt then some v else none
  | none => none

/-- `SET key owner PX ttlMs NX` at time `now` (the body of
`RedisFlowStore.acquireLock`, with the fresh `randomUUID()` owner passed in). -/
def RedisLocks.acquireLock (st : RedisLocks) (key owner : String) (ttlMs now : Nat) :
    RedisLocks × Option String :=
  match st.redisGet key now with
  | some _ => (st, none)
  | none =>
    ({ entries := fun k => if k = key then some (owner, now + ttlMs) else st.entries k },
     some owner)

/-- `RELEASE_LOCK_SCRIPT`: atomically `if GET key == owner then DEL key`. -/
def RedisLocks.releaseLock (st : RedisLocks) (key owner : String) (now : Nat) :
    RedisLocks :=
  if st.redisGet key now = some owner then
    { entries := fun k => if k = key then none else st.entries k }
  else st

/-! ## External client interface (`src/types/authsignal.ts`, `src/auth/authsignal-client.ts`)

The claims treat the Authsignal service as a deterministic oracle: each
operation either returns a result (`some`) or throws (`none`). -/

/-- `AuthsignalTrackResult` from `types/authsignal.ts`. -/
structure AuthsignalTrackResult where
  state : String
  idempotencyKey : Option String
  url : Option String
  token : Option String
deriving DecidableEq, Repr

/-- `TrackActionInput` from `authsignal-client.ts`; `custom` carries the
string-valued payload entries built by the handler. -/
structure TrackActionInput where
  userId : String
  action : String
  redirectUrl : String
  ipAddress : Option String
  userAgent : Option String
  custom : List (String × String)
deriving DecidableEq, Repr

/-- The `AuthsignalClient` interface as a deterministic oracle:
`trackAction` initiates, `getAction userId action idempotencyKey` reads the
current state string (`AuthsignalGetActionResult.state`); `none` models a
thrown error. -/
structure AuthsignalClient where
  trackAction : TrackActionInput → Option AuthsignalTrackResult
  getAction : String → String → String → Option String

/-! ## Inbound request model (`src/types/asgardeo.ts`, `src/utils.ts`)

The zod schema is `passthrough`, so loosely-typed extra fields reachable by
`extractTenantHint` are modelled as string-valued association lists (the
source's `readRecordValue` keeps only string values; non-string values are
treated as absent). -/

/-- One entry of `allowedOperations`. -/
structure AllowedOperation where
  op : String
deriving DecidableEq, Repr

/-- The `event.user` sub-structure consulted by `resolveUserId`. -/
structure AsgardeoUser where
  id : Option String
  username : Option String
  email : Option String
  claims : List (String × String)
deriving DecidableEq, Repr

/-- The `event` payload: the user block plus the string-valued fields of the
event object itself and of `event.context` that `extractTenantHint` reads. -/
structure AsgardeoEvent where
  user : Option AsgardeoUser
  fields : List (String × String)
  context : Option (List (String × String))
deriving DecidableEq, Repr

/-- The validated authenticate request (`asgardeoAuthRequestSchema`), with
`fields` holding the passthrough top-level string entries. -/
structure AsgardeoAuthRequest where
  actionType : Option String
  flowId : String
  requestId : Option String
  allowedOperations : Option (List AllowedOperation)
  event : Option AsgardeoEvent
  fields : List (String × String)
deriving DecidableEq, Repr

/-- `maybeString`: trim, and treat the empty string as absent. -/
def maybeString (value : Option String) : Option String :=
  value.bind fun s =>
    let trimmed := strTrim s
    if trimmed = "" then none else some trimmed

/-- `readRecordValue`: look a key up in a loosely-typed record and keep only
non-empty string values. -/
def readRecordValue (record : Option (List (String × String))) (key : String) :
    Option String :=
  match record with
  | none => none
  | some entries => maybeString ((entries.lookup key))

/-- `resolveUserId`: first non-empty of `user.id`, `user.username`,
`user.email`, `user.claims.sub`, `user.claims.user_id`. -/
def resolveUserId (request : AsgardeoAuthRequest) : Option String :=
  match request.event.bind (·.user) with
  | none => none
  | some user =>
    (maybeString user.id).or
      ((maybeString user.username).or
        ((maybeString user.email).or
          ((maybeString (user.claims.lookup "sub")).or
            (maybeString (user.claims.lookup "user_id")))))

/-- `TENANT_KEYS` from `utils.ts`. -/
def TENANT_KEYS : List String :=
  ["tenant", "tenantDomain", "organization", "org", "organizationName"]

/-- `extractTenantHint`: scan `TENANT_KEYS` over the top-level request, then
the event object, then `event.context`. -/
def extractTenantHint (request : AsgardeoAuthRequest) : Option String :=
  match TENANT_KEYS.findSome? (readRecordValue (some request.fields)) with
  | some v => some v
  | none =>
    match TENANT_KEYS.findSome? (readRecordValue (request.event.map (·.fields))) with
    | some v => some v
    | none => TENANT_KEYS.findSome? (readRecordValue (request.event.bind (·.context)))

/-- `buildResumeUrl`: placeholder substitution over the configured template.
The trailing `new URL(...)` normalisation step (which appends a `flowId`
query parameter when the template produced none) and percent-encoding of the
substituted values are abstracted as identity: no claim under verification
inspects the resume URL's contents. -/
def buildResumeUrl (template flowId : String) (tenantHint : Option String) : String :=
  let tenant := tenantHint.getD ""
  strReplace (strReplace (strReplace template "{flowId}" flowId) "{tenant}" tenant)
    "{organization}" tenant

/-- `canRedirect`: true when `allowedOperations` is absent or contains a
`redirect` operation. -/
def canRedirect (request : AsgardeoAuthRequest) : Bool :=
  match request.allowedOperations with
  | none => true
  | some ops => ops.any (fun o => o.op == "redirect")

/-! ## Response envelope (`src/types/asgardeo.ts`, `src/app.ts` helpers) -/

/-- `AsgardeoAuthResponse`: the four envelope shapes built by
`asgardeoSuccess` / `asgardeoFailure` / `asgardeoIncomplete` /
`asgardeoError`.  `incomplete url` stands for
`{actionStatus: "INCOMPLETE", operations: [{op: "redirect", url}]}`. -/
inductive AsgardeoAuthResponse where
  | success
  | failed (failureReason failureDescription : String)
  | incomplete (redirectUrl : String)
  | error (errorCode errorDescription : String)
deriving DecidableEq, Repr

/-! ## State mapping (`src/app.ts` lines 12-88) -/

def SUCCESS_STATES : List String := ["ALLOW", "CHALLENGE_SUCCEEDED", "REVIEW_SUCCEEDED"]

def FAILED_STATES : List String := ["BLOCK", "CHALLENGE_FAILED", "REVIEW_FAILED"]

def PENDING_STATES : List String := ["CHALLENGE_REQUIRED", "REVIEW_REQUIRED"]

def LOCK_TTL_MS : Nat := 30000

/-- The codomain of `mapTrackState`. -/
inductive MappedTrackState where
  | success
  | failed (reason : String)
  | pending (redirectUrl : String)
  | unknown
deriving DecidableEq, Repr

/-- `mapTrackState`: case-insensitive membership in the fixed vocabularies;
the pending bucket additionally requires `response.url`. -/
def mapTrackState (state : String) (response : AuthsignalTrackResult) :
    MappedTrackState :=
  let normalized := strToUpper state
  if SUCCESS_STATES.contains normalized then .success
  else if FAILED_STATES.contains normalized then
    .failed ("authsignal_" ++ strToLower normalized)
  else
    match response.url with
    | some url => if PENDING_STATES.contains normalized then .pending url else .unknown
    | none => .unknown

/-- `toCompletedFlow`: project a pending record to a completed one. -/
def toCompletedFlow (flow : PendingFlowRecord) (outcome : FlowOutcome)
    (updatedAt : Nat) (failureReason : Option String) : CompletedFlowRecord :=
  { flowId := flow.flowId
    userId := flow.userId
    resumeUrl := flow.resumeUrl
    tenantHint := flow.tenantHint
    createdAt := flow.createdAt
    updatedAt := updatedAt
    outcome := outcome
    failureReason := failureReason }

/-! ## Re-entry resolver (`src/app.ts` `resolvePendingFlow`, lines 94-124) -/

/-- `resolvePendingFlow`: poll `getAction`; on a success/failed state persist
a completed record; on anything else (including a thrown `getAction`) re-save
the pending record with a refreshed `updatedAt` and return the stored
redirect again (or `REDIRECT_NOT_ALLOWED` when the caller forbids redirects).
Returns the response and the updated store; it always performs exactly one
`getAction` call. -/
def resolvePendingFlow (client : AuthsignalClient) (flow : PendingFlowRecord)
    (asgardeoRequest : AsgardeoAuthRequest) (store : MemoryFlowStore) (now : Nat) :
    AsgardeoAuthResponse × MemoryFlowStore :=
  let fallthrough : AsgardeoAuthResponse × MemoryFlowStore :=
    let store := store.save (.pending { flow with updatedAt := now }) now
    if !canRedirect asgardeoRequest then
      (.error "REDIRECT_NOT_ALLOWED" "Redirect operation not allowed", store)
    else
      (.incomplete flow.redirectUrl, store)
  match client.getAction flow.userId flow.action flow.idempotencyKey with
  | none => fallthrough
  | some state =>
    let actionState := strToUpper state
    if SUCCESS_STATES.contains actionState then
      (.success, store.save (.completed (toCompletedFlow flow .SUCCESS now none)) now)
    else if FAILED_STATES.contains actionState then
      let reason := "authsignal_" ++ strToLower actionState
      (.failed reason "Authentication challenge failed",
       store.save (.completed (toCompletedFlow flow .FAILED now (some reason))) now)
    else fallthrough

/-! ## Authenticate handler (`src/app.ts` `/api/authenticate`, lines 166-328) -/

/-- Replay of a stored terminal outcome (`app.ts` lines 185-191, duplicated
at 201-209 and 224-230). -/
def replayCompleted (c : CompletedFlowRecord) : AsgardeoAuthResponse :=
  match c.outcome with
  | .SUCCESS => .success
  | .FAILED => .failed (c.failureReason.getD "CHALLENGE_FAILED")
      "Authentication challenge failed"

/-- Result of one handler invocation: HTTP status, response envelope, store
state afterwards, and the number of `trackAction` / `getAction` calls made. -/
structure HandlerResult where
  status : Nat
  response : AsgardeoAuthResponse
  store : MemoryFlowStore
  trackCalls : Nat
  getActionCalls : Nat

/-- The branch taken when a flow record is found in the store (`app.ts`
lines 180-192): `PENDING` delegates to the re-entry resolver, `COMPLETED`
replays the stored outcome. -/
def handleFoundFlow (client : AuthsignalClient) (flow : FlowRecord)
    (asgardeoRequest : AsgardeoAuthRequest) (store : MemoryFlowStore) (now : Nat) :
    HandlerResult :=
  match flow with
  | .pending p =>
    let (resp, store) := resolvePendingFlow client p asgardeoRequest store now
    ⟨200, resp, store, 0, 1⟩
  | .completed c => ⟨200, replayCompleted c, store, 0, 0⟩

/-- The lock-denied branch (`app.ts` lines 196-214): re-read the store; a
record now present is handled like a record found on first read (the source
duplicates the two branches textually); if still absent, answer
`FLOW_LOCKED` in a 200 envelope. -/
def lockDeniedBranch (client : AuthsignalClient)
    (asgardeoRequest : AsgardeoAuthRequest) (store : MemoryFlowStore) (now : Nat) :
    HandlerResult :=
  let (store, lockRaceFlow) := store.get asgardeoRequest.flowId now
  match lockRaceFlow with
  | some (.pending p) =>
    let (resp, store) := resolvePendingFlow client p asgardeoRequest store now
    ⟨200, resp, store, 0, 1⟩
  | some (.completed c) => ⟨200, replayCompleted c, store, 0, 0⟩
  | none => ⟨200, .error "FLOW_LOCKED" "Flow is being processed, retry shortly",
      store, 0, 0⟩

/-- The `trackAction` input the handler builds (`app.ts` lines 240-261):
resume URL from the configured template, `login` as default action, client
IP / user agent when available, and the correlation payload in `custom`. -/
def buildTrackInput (asgardeoRequest : AsgardeoAuthRequest) (userId : String)
    (resumeUrlTemplate : String) (ipAddress userAgent : Option String) :
    TrackActionInput :=
  let flowId := asgardeoRequest.flowId
  let tenantHint := extractTenantHint asgardeoRequest
  { userId := userId
    action := asgardeoRequest.actionType.getD "login"
    redirectUrl := buildResumeUrl resumeUrlTemplate flowId tenantHint
    ipAddress := ipAddress
    userAgent := userAgent
    custom :=
      ("asgardeoFlowId", flowId) ::
        (match asgardeoRequest.actionType with
         | some t => [("asgardeoActionType", t)]
         | none => []) }

/-- The critical section run while holding the lock (`app.ts` lines 217-316),
without the `finally` release: double-check read, then initiate via
`trackAction` and map the result.  A `none` from `trackAction` models the
thrown error that the top-level `catch` converts to `INTERNAL_ERROR`. -/
def criticalSection (client : AuthsignalClient) (resumeUrlTemplate : String)
    (asgardeoRequest : AsgardeoAuthRequest) (ipAddress userAgent : Option String)
    (store : MemoryFlowStore) (now : Nat) : HandlerResult :=
  let flowId := asgardeoRequest.flowId
  let (store, doubleCheckFlow) := store.get flowId now
  match doubleCheckFlow with
  | some flow => handleFoundFlow client flow asgardeoRequest store now
  | none =>
    match resolveUserId asgardeoRequest with
    | none => ⟨200, .error "MISSING_USER" "No user identifier found in request",
        store, 0, 0⟩
    | some userId =>
      let tenantHint := extractTenantHint asgardeoRequest
      let resumeUrl := buildResumeUrl resumeUrlTemplate flowId tenantHint
      let action := asgardeoRequest.actionType.getD "login"
      match client.trackAction
          (buildTrackInput asgardeoRequest userId resumeUrlTemplate
            ipAddress userAgent) with
      | none =>
        -- trackAction threw: after the `finally` releases the lock, the
        -- top-level catch answers INTERNAL_ERROR in a 200 envelope.
        ⟨200, .error "INTERNAL_ERROR" "Internal adapter error", store, 1, 0⟩
      | some trackResult =>
        match mapTrackState trackResult.state trackResult with
        | .pending redirectUrl =>
          match trackResult.idempotencyKey with
          | none => ⟨200,
              .error "AUTHSIGNAL_ERROR" "Missing idempotency key from Authsignal",
              store, 1, 0⟩
          | some idempotencyKey =>
            if !canRedirect asgardeoRequest then
              ⟨200, .error "REDIRECT_NOT_ALLOWED" "Redirect operation not allowed",
                store, 1, 0⟩
            else
              let pendingFlow : PendingFlowRecord :=
                ⟨flowId, userId, resumeUrl, tenantHint, now, now,
                  redirectUrl, idempotencyKey, action⟩
              ⟨200, .incomplete redirectUrl,
                store.save (.pending pendingFlow) now, 1, 0⟩
        | .success =>
          ⟨200, .success,
            store.save (.completed
              ⟨flowId, userId, resumeUrl, tenantHint, now, now, .SUCCESS, none⟩) now,
            1, 0⟩
        | .failed reason =>
          ⟨200, .failed reason "Authsignal denied the action",
            store.save (.completed
              ⟨flowId, userId, resumeUrl, tenantHint, now, now, .FAILED, some reason⟩)
              now,
            1, 0⟩
        | .unknown =>
          ⟨200, .error "AUTHSIGNAL_ERROR" "Unexpected response from Authsignal",
            store, 1, 0⟩

/-- The full authenticate handler after schema validation (`app.ts` lines
177-327).  `releaseLockFails` models a `releaseLock` that throws: the
`finally`'s inner `try/catch` logs it and leaves the response unchanged. -/
def authenticate (client : AuthsignalClient) (resumeUrlTemplate : String)
    (releaseLockFails : Bool) (asgardeoRequest : AsgardeoAuthRequest)
    (ipAddress userAgent : Option String) (store : MemoryFlowStore) (now : Nat) :
    HandlerResult :=
  let flowId := asgardeoRequest.flowId
  let (store, existingFlow) := store.get flowId now
  match existingFlow with
  | some flow => handleFoundFlow client flow asgardeoRequest store now
  | none =>
    let (store, lockOwner) := store.acquireLock flowId LOCK_TTL_MS now
    match lockOwner with
    | none => lockDeniedBranch client asgardeoRequest store now
    | some owner =>
      let result := criticalSection client resumeUrlTemplate asgardeoRequest
        ipAddress userAgent store now
      -- `finally`: release the lock on every exit path of the section.
      if releaseLockFails then result
      else { result with store := result.store.releaseLock flowId owner }

/-! ## Resilient client retry loop (`src/auth/authsignal-client.ts`)

One `fetch` attempt has five relevant outcomes.  A non-OK response is not
itself thrown: the loop first consults `shouldRetryStatusCode`, and only
then throws an `Error` — which the `catch` block sees as non-retryable
(it is neither an `AbortError` nor a `TypeError`).  `otherError` covers any
other throw inside the `try` (e.g. an unparsable response body). -/

inductive FetchOutcome where
  | httpOk
  | httpError (status : Nat)
  | abortError
  | networkError
  | otherError
deriving DecidableEq, Repr

def TIMEOUT_MS : Nat := 5000

def MAX_RETRIES : Nat := 2

/-- `shouldRetryStatusCode`: HTTP 429 or any 5xx. -/
def shouldRetryStatusCode (statusCode : Nat) : Bool :=
  statusCode == 429 || 500 ≤ statusCode

/-- `isRetryableError`: `AbortError` (timeout) or `TypeError` (network);
anything else thrown is fatal. -/
def isRetryableError : FetchOutcome → Bool
  | .abortError => true
  | .networkError => true
  | _ => false

/-- `retryDelay`: capped exponential backoff, `150 * 2 ^ attempt` ms. -/
def retryDelay (attempt : Nat) : Nat := 150 * 2 ^ attempt

/-- Whether the attempt's outcome lets the loop move on to another attempt
(given spare attempts remain): a retryable status code, or a thrown error
`isRetryableError` accepts. -/
def outcomeRetryable : FetchOutcome → Bool
  | .httpOk => false
  | .httpError status => shouldRetryStatusCode status
  | e => isRetryableError e

/-- Observable trace of one `request` call: whether it returned normally,
how many `fetch` attempts ran, and the backoff delays slept in order. -/
structure RequestTrace where
  returnedOk : Bool
  attempts : Nat
  delays : List Nat
deriving DecidableEq, Repr

/-- The `for (attempt = 0; attempt <= MAX_RETRIES; ...)` loop of
`HttpAuthsignalClient.request`, from attempt number `attempt` with
`fuel = MAX_RETRIES + 1 - attempt` iterations left; `fuel = 0` is the
unreachable post-loop `throw new Error("... exhausted retries")`. -/
def requestFrom (oracle : Nat → FetchOutcome) : Nat → Nat → RequestTrace
  | _, 0 => ⟨false, 0, []⟩
  | attempt, fuel + 1 =>
    let retry : RequestTrace :=
      let rest := requestFrom oracle (attempt + 1) fuel
      ⟨rest.returnedOk, rest.attempts + 1, retryDelay attempt :: rest.delays⟩
    match oracle attempt with
    | .httpOk => ⟨true, 1, []⟩
    | .httpError status =>
      if shouldRetryStatusCode status && attempt < MAX_RETRIES then retry
      else ⟨false, 1, []⟩
    | .abortError => if attempt < MAX_RETRIES then retry else ⟨false, 1, []⟩
    | .networkError => if attempt < MAX_RETRIES then retry else ⟨false, 1, []⟩
    | .otherError => ⟨false, 1, []⟩

/-- `HttpAuthsignalClient.request` against an oracle giving the outcome of
each `fetch` attempt. -/
def request (oracle : Nat → FetchOutcome) : RequestTrace :=
  requestFrom oracle 0 (MAX_RETRIES + 1)

/-! ## Auxiliary predicates used in the statements -/

/-- The store with the flow record for `flowId` removed (what lazy expiry
leaves behind). -/
def eraseFlow (s : MemoryFlowStore) (flowId : String) : MemoryFlowStore :=
  { s with flows := fun k => if k = flowId then none else s.flows k }

/-- No live lock for `flowId` at time `now`, so `acquireLock` succeeds. -/
def lockFree (s : MemoryFlowStore) (flowId : String) (now : Nat) : Bool :=
  match s.locks flowId with
  | none => true
  | some (_, expiresAt) => !(expiresAt > now)

/-- A `getAction` outcome that resolves to "still pending": the call threw,
or the returned state is in neither the success nor the failure vocabulary. -/
def pollStillPending (result : Option String) : Bool :=
  match result with
  | none => true
  | some state =>
    !(SUCCESS_STATES.contains (strToUpper state)) &&
      !(FAILED_STATES.contains (strToUpper state))

/-- The store holds no completed record for `flowId`. -/
def noCompletedRecord (s : MemoryFlowStore) (flowId : String) : Prop :=
  match s.flows flowId with
  | some (.completed _, _) => False
  | _ => True

/-! # Theorems

## Retry loop lemmas -/

theorem requestFrom_attempts_le (oracle : Nat → FetchOutcome) :
    ∀ fuel attempt, (requestFrom oracle attempt fuel).attempts ≤ fuel := by
  intro fuel
  induction fuel with
  | zero => intro attempt; simp [requestFrom]
  | succ n ih =>
    intro attempt
    have hnext := ih (attempt + 1)
    cases h : oracle attempt <;> simp [requestFrom, h] <;> split <;> simp <;> omega

theorem requestFrom_attempts_pos (oracle : Nat → FetchOutcome) (fuel attempt : Nat) :
    1 ≤ (requestFrom oracle attempt (fuel + 1)).attempts := by
  cases h : oracle attempt <;> simp [requestFrom, h] <;> split <;> simp

theorem requestFrom_delays (oracle : Nat → FetchOutcome) :
    ∀ fuel attempt, attempt + fuel = MAX_RETRIES + 1 →
      (requestFrom oracle attempt fuel).delays =
        (List.range ((requestFrom oracle attempt fuel).attempts - 1)).map
          (fun i => retryDelay (attempt + i)) := by
  intro fuel
  induction fuel with
  | zero => intro attempt _; simp [requestFrom]
  | succ n ih =>
    intro attempt hinv
    have key : attempt < MAX_RETRIES →
        retryDelay attempt :: (requestFrom oracle (attempt + 1) n).delays =
          (List.range ((requestFrom oracle (attempt + 1) n).attempts + 1 - 1)).map
            (fun i => retryDelay (attempt + i)) := by
      intro hlt
      obtain ⟨m, hm⟩ : ∃ m, n = m + 1 := by
        cases n with
        | zero => exfalso; simp [MAX_RETRIES] at hinv hlt; omega
        | succ m => exact ⟨m, rfl⟩
      have hpos : 1 ≤ (requestFrom oracle (attempt + 1) n).attempts :=
        hm ▸ requestFrom_attempts_pos oracle m (attempt + 1)
      have hnext := ih (attempt + 1) (by omega)
      obtain ⟨k, hk⟩ : ∃ k, (requestFrom oracle (attempt + 1) n).attempts = k + 1 :=
        ⟨_, (Nat.succ_pred_eq_of_pos hpos).symm⟩
      rw [hnext, hk]
      simp only [Nat.add_sub_cancel, List.range_succ_eq_map, List.map_cons,
        List.map_map, List.cons_eq_cons]
      refine ⟨by simp, ?_⟩
      · apply List.map_congr_left
        intro i _
        simp only [Function.comp_apply]
        congr 1
        omega
    cases h : oracle attempt <;> simp only [requestFrom, h]
    case httpOk => simp
    case httpError status =>
      split
      · rename_i hc
        rw [Bool.and_eq_true, decide_eq_true_eq] at hc
        simpa using key hc.2
      · simp
    case abortError =>
      split
      · rename_i hc; simpa using key hc
      · simp
    case networkError =>
      split
      · rename_i hc; simpa using key hc
      · simp
    case otherError => simp

theorem requestFrom_retry_reason (oracle : Nat → FetchOutcome) :
    ∀ fuel attempt i, i + 1 < (requestFrom oracle attempt fuel).attempts →
      outcomeRetryable (oracle (attempt + i)) = true := by
  intro fuel
  induction fuel with
  | zero => intro attempt i h; simp [requestFrom] at h
  | succ n ih =>
    intro attempt i h
    cases h1 : oracle attempt <;> simp only [requestFrom, h1] at h
    case httpOk => simp at h
    case httpError status =>
      rw [apply_ite RequestTrace.attempts] at h
      split at h
      · rename_i hcond
        rw [Bool.and_eq_true, decide_eq_true_eq] at hcond
        cases i with
        | zero => simpa [outcomeRetryable, h1] using hcond.1
        | succ j =>
          have := ih (attempt + 1) j (by simpa using Nat.lt_of_succ_lt_succ h)
          simpa [Nat.add_assoc, Nat.add_comm 1 j] using this
      · simp at h
    case abortError =>
      rw [apply_ite RequestTrace.attempts] at h
      split at h
      · cases i with
        | zero => simp [outcomeRetryable, isRetryableError, h1]
        | succ j =>
          have := ih (attempt + 1) j (by simpa using Nat.lt_of_succ_lt_succ h)
          simpa [Nat.add_assoc, Nat.add_comm 1 j] using this
      · simp at h
    case networkError =>
      rw [apply_ite RequestTrace.attempts] at h
      split at h
      · cases i with
        | zero => simp [outcomeRetryable, isRetryableError, h1]
        | succ j =>
          have := ih (attempt + 1) j (by simpa using Nat.lt_of_succ_lt_succ h)
          simpa [Nat.add_assoc, Nat.add_comm 1 j] using this
      · simp at h
    case otherError => simp at h

theorem outcomeRetryable_cases (e : FetchOutcome) (h : outcomeRetryable e = true) :
    e = .abortError ∨ e = .networkError ∨
      ∃ status, e = .httpError status ∧ (status = 429 ∨ 500 ≤ status) := by
  cases e <;> simp_all [outcomeRetryable, isRetryableError, shouldRetryStatusCode]

/-- C5: the resilient client retries only for transport errors, timeout
aborts and HTTP 429/5xx, makes at most `MAX_RETRIES + 1 = 3` fetch attempts,
sleeps `150 * 2 ^ attempt` ms before each retry, and any other HTTP error
status on the first attempt makes the call throw immediately with no retry
and no backoff sleep. -/
theorem C5_client_retry_policy :
    (∀ oracle : Nat → FetchOutcome,
      (request oracle).attempts ≤ MAX_RETRIES + 1 ∧
      (request oracle).delays =
        (List.range ((request oracle).attempts - 1)).map retryDelay ∧
      (∀ i, i + 1 < (request oracle).attempts →
        oracle i = .abortError ∨ oracle i = .networkError ∨
          ∃ status, oracle i = .httpError status ∧ (status = 429 ∨ 500 ≤ status))) ∧
    (∀ (oracle : Nat → FetchOutcome) (status : Nat),
      oracle 0 = .httpError status → shouldRetryStatusCode status = false →
      request oracle = ⟨false, 1, []⟩) := by
  constructor
  · intro oracle
    refine ⟨requestFrom_attempts_le oracle (MAX_RETRIES + 1) 0, ?_, ?_⟩
    · have h := requestFrom_delays oracle (MAX_RETRIES + 1) 0 (by simp)
      simpa [request] using h
    · intro i hi
      have h := requestFrom_retry_reason oracle (MAX_RETRIES + 1) 0 i
        (by simpa [request] using hi)
      exact outcomeRetryable_cases _ (by simpa using h)
  · intro oracle status h0 hs
    simp [request, requestFrom, h0, hs]

theorem C5_client_retry_policy_witness :
    request (fun _ => FetchOutcome.httpError 404) = ⟨false, 1, []⟩ ∧
    (request (fun _ => FetchOutcome.httpError 503)).attempts ≤ MAX_RETRIES + 1 := by
  constructor
  · exact C5_client_retry_policy.2 (fun _ => .httpError 404) 404 rfl (by decide)
  · exact (C5_client_retry_policy.1 (fun _ => .httpError 503)).1

/-! ## Lock release (C7) -/

/-- C7 counterexample: the claim says release is a no-op when the lock has
expired, but the memory backend's `releaseLock` never consults `expiresAt`:
with a lock entry `("o", 5)` whose TTL elapsed long ago (5 < 10), a release
by the same owner still deletes the entry — the map changes, so it is not a
no-op. -/
theorem C7_counterexample :
    ((MemoryFlowStore.mk 900 (fun _ => none)
        (fun k => if k = "f" then some ("o", 5) else none) 0).releaseLock "f"
          "o").locks "f" = none ∧
    (MemoryFlowStore.mk 900 (fun _ => none)
        (fun k => if k = "f" then some ("o", 5) else none) 0).locks "f" =
      some ("o", 5) ∧
    (5 : Nat) < 10 := by
  refine ⟨?_, by decide, by decide⟩
  simp [MemoryFlowStore.releaseLock]

/-- C7 (amended): `releaseLock(flowId, ownerToken)` is a compare-and-delete
in both backends: it deletes the lock entry for `flowId` exactly when the
stored (for Redis: stored and unexpired) lock's owner equals `ownerToken`,
touches no other key and no flow data, and is a no-op when the entry is
absent or held by a different owner — so a stale release never deletes a
lock acquired by a newer owner.  In the Redis backend expiry removes the
key, so releasing an expired lock is also a no-op; in the memory backend
expiry is not consulted, so releasing one's own expired-but-unreclaimed
entry deletes it (observably equivalent to a no-op, since `acquireLock`
ignores expired entries). -/
theorem C7_release_lock_compare_and_delete :
    (∀ (s : MemoryFlowStore) (f o : String),
      (s.releaseLock f o).locks f =
        (match s.locks f with
         | some (o', e) => if o' = o then none else some (o', e)
         | none => none) ∧
      (∀ k, k ≠ f → (s.releaseLock f o).locks k = s.locks k) ∧
      (s.releaseLock f o).flows = s.flows ∧
      (∀ o' e, s.locks f = some (o', e) → o' ≠ o → s.releaseLock f o = s) ∧
      (s.locks f = none → s.releaseLock f o = s)) ∧
    (∀ (st : RedisLocks) (f o : String) (now : Nat),
      (st.releaseLock f o now).entries f =
        (if st.redisGet f now = some o then none else st.entries f) ∧
      (∀ k, k ≠ f → (st.releaseLock f o now).entries k = st.entries k) ∧
      (st.redisGet f now ≠ some o → st.releaseLock f o now = st) ∧
      (∀ o' e, st.entries f = some (o', e) → e ≤ now →
        st.releaseLock f o now = st)) := by
  constructor
  · intro s f o
    refine ⟨?_, ?_, ?_, ?_, ?_⟩
    · cases h : s.locks f with
      | none => simp [MemoryFlowStore.releaseLock, h]
      | some pair =>
        obtain ⟨o', e⟩ := pair
        by_cases ho : o' = o <;> simp [MemoryFlowStore.releaseLock, h, ho]
    · intro k hk
      cases h : s.locks f with
      | none => simp [MemoryFlowStore.releaseLock, h]
      | some pair =>
        obtain ⟨o', e⟩ := pair
        by_cases ho : o' = o <;> simp [MemoryFlowStore.releaseLock, h, ho, hk]
    · cases h : s.locks f with
      | none => simp [MemoryFlowStore.releaseLock, h]
      | some pair =>
        obtain ⟨o', e⟩ := pair
        by_cases ho : o' = o <;> simp [MemoryFlowStore.releaseLock, h, ho]
    · intro o' e h ho
      simp [MemoryFlowStore.releaseLock, h, ho]
    · intro h
      simp [MemoryFlowStore.releaseLock, h]
  · intro st f o now
    refine ⟨?_, ?_, ?_, ?_⟩
    · by_cases h : st.redisGet f now = some o <;> simp [RedisLocks.releaseLock, h]
    · intro k hk
      by_cases h : st.redisGet f now = some o <;>
        simp [RedisLocks.releaseLock, h, hk]
    · intro h
      simp [RedisLocks.releaseLock, h]
    · intro o' e h he
      have : st.redisGet f now ≠ some o := by
        simp [RedisLocks.redisGet, h]
        omega
      simp [RedisLocks.releaseLock, this]

theorem C7_release_lock_compare_and_delete_witness :
    ((MemoryFlowStore.mk 900 (fun _ => none)
        (fun k => if k = "f" then some ("newOwner", 50) else none) 1).releaseLock
          "f" "staleOwner") =
      (MemoryFlowStore.mk 900 (fun _ => none)
        (fun k => if k = "f" then some ("newOwner", 50) else none) 1) ∧
    (RedisLocks.mk (fun k => if k = "f" then some ("o", 5) else none)).releaseLock
        "f" "o" 10 =
      RedisLocks.mk (fun k => if k = "f" then some ("o", 5) else none) := by
  constructor
  · exact (C7_release_lock_compare_and_delete.1
      (MemoryFlowStore.mk 900 (fun _ => none)
        (fun k => if k = "f" then some ("newOwner", 50) else none) 1)
      "f" "staleOwner").2.2.2.1 "newOwner" 50 (by decide) (by decide)
  · exact (C7_release_lock_compare_and_delete.2
      (RedisLocks.mk (fun k => if k = "f" then some ("o", 5) else none))
      "f" "o" 10).2.2.2 "o" 5 (by decide) (by decide)

/-! ## Store read lemmas -/

theorem get_of_unexpired (s : MemoryFlowStore) (fid : String) (now : Nat)
    (r : FlowRecord) (e : Nat) (h : s.flows fid = some (r, e)) (hlive : ¬ e < now) :
    s.get fid now = (s, some r) := by
  simp [MemoryFlowStore.get, MemoryFlowStore.pruneExpired, h, hlive]

theorem get_of_none (s : MemoryFlowStore) (fid : String) (now : Nat)
    (h : s.flows fid = none) : s.get fid now = (s, none) := by
  simp [MemoryFlowStore.get, MemoryFlowStore.pruneExpired, h]

theorem get_of_expired (s : MemoryFlowStore) (fid : String) (now : Nat)
    (r : FlowRecord) (e : Nat) (h : s.flows fid = some (r, e)) (hexp : e < now) :
    s.get fid now = (eraseFlow s fid, none) := by
  simp [MemoryFlowStore.get, MemoryFlowStore.pruneExpired, h, hexp, eraseFlow]

/-! ## C9: TTL expiry resets state -/

/-- C9: a flow record whose memory-backend TTL has elapsed is invisible to
`get` (lazy expiry on read), the authenticate handler treats the store
exactly as if the record never existed (the whole run coincides with the run
on the store with the record erased), and `save` stamps the record with an
expiry of the call instant plus the configured flow TTL. -/
theorem C9_ttl_expiry_resets (client : AuthsignalClient) (tmpl : String)
    (rlf : Bool) (req : AsgardeoAuthRequest) (ip ua : Option String)
    (s : MemoryFlowStore) (now : Nat) (r : FlowRecord) (e : Nat)
    (hrec : s.flows req.flowId = some (r, e)) (hexp : e < now) :
    (s.get req.flowId now).2 = none ∧
    authenticate client tmpl rlf req ip ua s now =
      authenticate client tmpl rlf req ip ua (eraseFlow s req.flowId) now ∧
    (∀ (rec : FlowRecord) (t : Nat),
      (s.save rec t).flows rec.flowId = some (rec, t + s.ttlSeconds * 1000)) := by
  have h1 := get_of_expired s req.flowId now r e hrec hexp
  have h2 : (eraseFlow s req.flowId).get req.flowId now =
      (eraseFlow s req.flowId, none) :=
    get_of_none _ _ _ (by simp [eraseFlow])
  refine ⟨by rw [h1], ?_, ?_⟩
  · simp only [authenticate]
    rw [h1, h2]
  · intro rec t
    simp [MemoryFlowStore.save]

theorem C9_ttl_expiry_resets_witness :
    ((MemoryFlowStore.mk 900
        (fun k => if k = "f" then
          some (.completed ⟨"f", "u", "r", none, 0, 0, .SUCCESS, none⟩, 50) else none)
        (fun _ => none) 0).get "f" 100).2 = none :=
  (C9_ttl_expiry_resets
    ⟨fun _ => none, fun _ _ _ => none⟩ "t" false
    ⟨none, "f", none, none, none, []⟩ none none
    (MemoryFlowStore.mk 900
      (fun k => if k = "f" then
        some (.completed ⟨"f", "u", "r", none, 0, 0, .SUCCESS, none⟩, 50) else none)
      (fun _ => none) 0)
    100 (.completed ⟨"f", "u", "r", none, 0, 0, .SUCCESS, none⟩) 50
    (by decide) (by decide)).1

/-! ## C2: completed flows are terminal and monotonic -/

/-- C2: with an unexpired `COMPLETED` record stored for the request's
`flowId`, the authenticate handler replays the stored outcome — `SUCCESS`
on a success outcome, `FAILED` with the stored `failureReason` (default
`CHALLENGE_FAILED`) otherwise — makes no external call, and leaves the
record exactly as it was (no transition back to Pending). -/
theorem C2_completed_monotonic (client : AuthsignalClient) (tmpl : String)
    (rlf : Bool) (req : AsgardeoAuthRequest) (ip ua : Option String)
    (s : MemoryFlowStore) (now : Nat) (c : CompletedFlowRecord) (e : Nat)
    (hrec : s.flows req.flowId = some (.completed c, e)) (hlive : ¬ e < now) :
    (authenticate client tmpl rlf req ip ua s now).status = 200 ∧
    (authenticate client tmpl rlf req ip ua s now).response = replayCompleted c ∧
    (c.outcome = .SUCCESS →
      (authenticate client tmpl rlf req ip ua s now).response = .success) ∧
    (c.outcome = .FAILED →
      (authenticate client tmpl rlf req ip ua s now).response =
        .failed (c.failureReason.getD "CHALLENGE_FAILED")
          "Authentication challenge failed") ∧
    (authenticate client tmpl rlf req ip ua s now).trackCalls = 0 ∧
    (authenticate client tmpl rlf req ip ua s now).getActionCalls = 0 ∧
    (authenticate client tmpl rlf req ip ua s now).store.flows req.flowId =
      some (.completed c, e) := by
  have hget := get_of_unexpired s req.flowId now _ e hrec hlive
  have hrun : authenticate client tmpl rlf req ip ua s now =
      ⟨200, replayCompleted c, s, 0, 0⟩ := by
    simp only [authenticate]
    rw [hget]
    rfl
  rw [hrun]
  refine ⟨rfl, rfl, ?_, ?_, rfl, rfl, hrec⟩
  · intro h; simp [replayCompleted, h]
  · intro h; simp [replayCompleted, h]

theorem C2_completed_monotonic_witness :
    (authenticate ⟨fun _ => none, fun _ _ _ => some "CHALLENGE_FAILED"⟩ "t" false
        ⟨none, "f", none, none, none, []⟩ none none
        (MemoryFlowStore.mk 900
          (fun k => if k = "f" then
            some (.completed ⟨"f", "u", "r", none, 0, 0, .SUCCESS, none⟩, 5000)
          else none)
          (fun _ => none) 0)
        100).response = .success :=
  (C2_completed_monotonic ⟨fun _ => none, fun _ _ _ => some "CHALLENGE_FAILED"⟩
    "t" false ⟨none, "f", none, none, none, []⟩ none none
    (MemoryFlowStore.mk 900
      (fun k => if k = "f" then
        some (.completed ⟨"f", "u", "r", none, 0, 0, .SUCCESS, none⟩, 5000)
      else none)
      (fun _ => none) 0)
    100 ⟨"f", "u", "r", none, 0, 0, .SUCCESS, none⟩ 5000
    (by decide) (by decide)).2.2.1 rfl

/-! ## C3: fail-open on transient poll error (shared re-poll lemma) -/

theorem authenticate_pending_repoll (client : AuthsignalClient) (tmpl : String)
    (rlf : Bool) (req : AsgardeoAuthRequest) (ip ua : Option String)
    (s : MemoryFlowStore) (now : Nat) (p : PendingFlowRecord) (e : Nat)
    (hrec : s.flows req.flowId = some (.pending p, e)) (hlive : ¬ e < now)
    (hpoll : pollStillPending (client.getAction p.userId p.action p.idempotencyKey)
      = true)
    (hred : canRedirect req = true) :
    authenticate client tmpl rlf req ip ua s now =
      ⟨200, .incomplete p.redirectUrl,
        s.save (.pending { p with updatedAt := now }) now, 0, 1⟩ := by
  have hget := get_of_unexpired s req.flowId now _ e hrec hlive
  simp only [authenticate]
  rw [hget]
  simp only [handleFoundFlow]
  unfold resolvePendingFlow
  cases hga : client.getAction p.userId p.action p.idempotencyKey with
  | none => simp [hred]
  | some state =>
    rw [hga] at hpoll
    simp only [pollStillPending, Bool.and_eq_true, Bool.not_eq_true'] at hpoll
    have h1 : strToUpper state ∉ SUCCESS_STATES := by simpa using hpoll.1
    have h2 : strToUpper state ∉ FAILED_STATES := by simpa using hpoll.2
    simp [h1, h2, hred]

/-- C3: for an unexpired Pending record, when the `getAction` poll throws or
reports a state outside both vocabularies, the handler answers the stored
INCOMPLETE redirect (never an ERROR or FAILED envelope), performs no
initiate call, and re-saves the Pending record with `updatedAt` refreshed to
the call instant — resetting its TTL to `now + ttlSeconds * 1000`. -/
theorem C3_fail_open_on_poll_error (client : AuthsignalClient) (tmpl : String)
    (rlf : Bool) (req : AsgardeoAuthRequest) (ip ua : Option String)
    (s : MemoryFlowStore) (now : Nat) (p : PendingFlowRecord) (e : Nat)
    (hkey : p.flowId = req.flowId)
    (hrec : s.flows req.flowId = some (.pending p, e)) (hlive : ¬ e < now)
    (hpoll : pollStillPending (client.getAction p.userId p.action p.idempotencyKey)
      = true)
    (hred : canRedirect req = true) :
    (authenticate client tmpl rlf req ip ua s now).response =
      .incomplete p.redirectUrl ∧
    (authenticate client tmpl rlf req ip ua s now).store.flows req.flowId =
      some (.pending { p with updatedAt := now }, now + s.ttlSeconds * 1000) ∧
    (authenticate client tmpl rlf req ip ua s now).trackCalls = 0 ∧
    (authenticate client tmpl rlf req ip ua s now).getActionCalls = 1 ∧
    (∀ a b, (authenticate client tmpl rlf req ip ua s now).response ≠ .error a b) ∧
    (∀ a b, (authenticate client tmpl rlf req ip ua s now).response ≠ .failed a b)
    := by
  rw [authenticate_pending_repoll client tmpl rlf req ip ua s now p e hrec hlive
    hpoll hred]
  refine ⟨rfl, ?_, rfl, rfl, by simp, by simp⟩
  simp [MemoryFlowStore.save, FlowRecord.flowId, hkey]

theorem C3_fail_open_on_poll_error_witness :
    (authenticate ⟨fun _ => none, fun _ _ _ => none⟩ "t" false
        ⟨none, "f", none, none, none, []⟩ none none
        (MemoryFlowStore.mk 900
          (fun k => if k = "f" then
            some (.pending ⟨"f", "u", "r", none, 0, 0, "https://x/1", "k1", "login"⟩,
              5000)
          else none)
          (fun _ => none) 0)
        100).response = .incomplete "https://x/1" :=
  (C3_fail_open_on_poll_error ⟨fun _ => none, fun _ _ _ => none⟩ "t" false
    ⟨none, "f", none, none, none, []⟩ none none
    (MemoryFlowStore.mk 900
      (fun k => if k = "f" then
        some (.pending ⟨"f", "u", "r", none, 0, 0, "https://x/1", "k1", "login"⟩,
          5000)
      else none)
      (fun _ => none) 0)
    100 ⟨"f", "u", "r", none, 0, 0, "https://x/1", "k1", "login"⟩ 5000
    (by decide) (by decide) (by decide) (by decide) (by decide)).1

/-! ## Structural lemmas about the store operations -/

theorem pruneExpired_locks (s : MemoryFlowStore) (f : String) (now : Nat) :
    (s.pruneExpired f now).locks = s.locks := by
  unfold MemoryFlowStore.pruneExpired
  split
  · rfl
  · split <;> rfl

theorem pruneExpired_ttl (s : MemoryFlowStore) (f : String) (now : Nat) :
    (s.pruneExpired f now).ttlSeconds = s.ttlSeconds := by
  unfold MemoryFlowStore.pruneExpired
  split
  · rfl
  · split <;> rfl

theorem save_locks (s : MemoryFlowStore) (r : FlowRecord) (now : Nat) :
    (s.save r now).locks = s.locks := rfl

theorem save_ttl (s : MemoryFlowStore) (r : FlowRecord) (now : Nat) :
    (s.save r now).ttlSeconds = s.ttlSeconds := rfl

theorem releaseLock_flows (s : MemoryFlowStore) (f o : String) :
    (s.releaseLock f o).flows = s.flows := by
  unfold MemoryFlowStore.releaseLock
  split
  · split <;> rfl
  · rfl

theorem acquireLock_fst_flows (s : MemoryFlowStore) (f : String) (t now : Nat) :
    ((s.acquireLock f t now).1).flows = s.flows := by
  unfold MemoryFlowStore.acquireLock
  split
  · split <;> rfl
  · rfl

theorem acquireLock_fst_ttl (s : MemoryFlowStore) (f : String) (t now : Nat) :
    ((s.acquireLock f t now).1).ttlSeconds = s.ttlSeconds := by
  unfold MemoryFlowStore.acquireLock
  split
  · split <;> rfl
  · rfl

theorem acquireLock_of_free (s : MemoryFlowStore) (f : String) (t now : Nat)
    (h : lockFree s f now = true) :
    s.acquireLock f t now =
      ({ s with
          locks := fun k =>
            if k = f then some (ownerToken s.lockCounter, now + t) else s.locks k
          lockCounter := s.lockCounter + 1 }, some (ownerToken s.lockCounter)) := by
  unfold lockFree at h
  cases hl : s.locks f with
  | none => simp [MemoryFlowStore.acquireLock, hl]
  | some pair =>
    obtain ⟨o, e⟩ := pair
    rw [hl] at h
    simp only [Bool.not_eq_true'] at h
    have hn : ¬ e > now := by simpa using h
    simp [MemoryFlowStore.acquireLock, hl, hn]

theorem acquireLock_denied_eq (s : MemoryFlowStore) (f : String) (t now : Nat)
    (h : (s.acquireLock f t now).2 = none) : (s.acquireLock f t now).1 = s := by
  cases hl : s.locks f with
  | none => simp [MemoryFlowStore.acquireLock, hl] at h
  | some pair =>
    obtain ⟨o, e⟩ := pair
    by_cases he : e > now
    · simp [MemoryFlowStore.acquireLock, hl, he]
    · simp [MemoryFlowStore.acquireLock, hl, he] at h

theorem acquireLock_of_held (s : MemoryFlowStore) (f : String) (t now : Nat)
    (o : String) (e : Nat) (hl : s.locks f = some (o, e)) (hlive : e > now) :
    s.acquireLock f t now = (s, none) := by
  simp [MemoryFlowStore.acquireLock, hl, hlive]

/-! ## Structural lemmas about the handler pieces -/

theorem resolvePendingFlow_locks (client : AuthsignalClient)
    (p : PendingFlowRecord) (req : AsgardeoAuthRequest) (st : MemoryFlowStore)
    (now : Nat) :
    ((resolvePendingFlow client p req st now).2).locks = st.locks := by
  unfold resolvePendingFlow
  cases client.getAction p.userId p.action p.idempotencyKey with
  | none => by_cases hr : canRedirect req <;> simp [hr, save_locks]
  | some state =>
    by_cases h1 : strToUpper state ∈ SUCCESS_STATES
    · simp [h1, save_locks]
    · by_cases h2 : strToUpper state ∈ FAILED_STATES
      · simp [h1, h2, save_locks]
      · by_cases hr : canRedirect req <;> simp [h1, h2, hr, save_locks]

theorem resolvePendingFlow_ttl (client : AuthsignalClient)
    (p : PendingFlowRecord) (req : AsgardeoAuthRequest) (st : MemoryFlowStore)
    (now : Nat) :
    ((resolvePendingFlow client p req st now).2).ttlSeconds = st.ttlSeconds := by
  unfold resolvePendingFlow
  cases client.getAction p.userId p.action p.idempotencyKey with
  | none => by_cases hr : canRedirect req <;> simp [hr, save_ttl]
  | some state =>
    by_cases h1 : strToUpper state ∈ SUCCESS_STATES
    · simp [h1, save_ttl]
    · by_cases h2 : strToUpper state ∈ FAILED_STATES
      · simp [h1, h2, save_ttl]
      · by_cases hr : canRedirect req <;> simp [h1, h2, hr, save_ttl]

theorem resolvePendingFlow_incomplete_inv (client : AuthsignalClient)
    (p : PendingFlowRecord) (req : AsgardeoAuthRequest) (st : MemoryFlowStore)
    (now : Nat) (url : String)
    (h : (resolvePendingFlow client p req st now).1 = .incomplete url) :
    url = p.redirectUrl ∧ canRedirect req = true ∧
    (resolvePendingFlow client p req st now).2 =
      st.save (.pending { p with updatedAt := now }) now := by
  unfold resolvePendingFlow at h ⊢
  cases hga : client.getAction p.userId p.action p.idempotencyKey
  case none =>
    first
      | rw [hga] at h ⊢
      | rw [hga] at h
      | skip
    by_cases hr : canRedirect req <;> simp [hr] at h ⊢ <;> simp [h]
  case some state =>
    first
      | rw [hga] at h ⊢
      | rw [hga] at h
      | skip
    by_cases h1 : strToUpper state ∈ SUCCESS_STATES
    · simp [h1] at h
    · by_cases h2 : strToUpper state ∈ FAILED_STATES
      · simp [h1, h2] at h
      · by_cases hr : canRedirect req <;> simp [h1, h2, hr] at h ⊢ <;> simp [h]

theorem handleFoundFlow_locks (client : AuthsignalClient) (flow : FlowRecord)
    (req : AsgardeoAuthRequest) (st : MemoryFlowStore) (now : Nat) :
    ((handleFoundFlow client flow req st now).store).locks = st.locks := by
  cases flow with
  | pending p => simpa [handleFoundFlow] using resolvePendingFlow_locks client p req st now
  | completed c => rfl

theorem handleFoundFlow_trackCalls (client : AuthsignalClient) (flow : FlowRecord)
    (req : AsgardeoAuthRequest) (st : MemoryFlowStore) (now : Nat) :
    (handleFoundFlow client flow req st now).trackCalls = 0 := by
  cases flow <;> rfl

theorem get_fst_locks (s : MemoryFlowStore) (f : String) (now : Nat) :
    ((s.get f now).1).locks = s.locks := by
  simp [MemoryFlowStore.get, pruneExpired_locks]

theorem get_fst_ttl (s : MemoryFlowStore) (f : String) (now : Nat) :
    ((s.get f now).1).ttlSeconds = s.ttlSeconds := by
  simp [MemoryFlowStore.get, pruneExpired_ttl]

theorem lockDeniedBranch_locks (client : AuthsignalClient)
    (req : AsgardeoAuthRequest) (st : MemoryFlowStore) (now : Nat) :
    ((lockDeniedBranch client req st now).store).locks = st.locks := by
  unfold lockDeniedBranch
  rcases hget : st.get req.flowId now with ⟨s1, ex⟩
  have hs1 : s1.locks = st.locks := by
    rw [show s1 = (st.get req.flowId now).1 from by rw [hget]]
    exact get_fst_locks st req.flowId now
  cases ex with
  | none => simpa using hs1
  | some flow =>
    cases flow with
    | pending p =>
      simpa using (resolvePendingFlow_locks client p req s1 now).trans hs1
    | completed c => simpa using hs1

theorem authenticate_expired_restart (client : AuthsignalClient) (tmpl : String)
    (rlf : Bool) (req : AsgardeoAuthRequest) (ip ua : Option String)
    (s : MemoryFlowStore) (now : Nat) (r : FlowRecord) (e : Nat)
    (hrec : s.flows req.flowId = some (r, e)) (hexp : e < now) :
    authenticate client tmpl rlf req ip ua s now =
      authenticate client tmpl rlf req ip ua (eraseFlow s req.flowId) now := by
  have h1 := get_of_expired s req.flowId now r e hrec hexp
  have h2 := get_of_none (eraseFlow s req.flowId) req.flowId now (by simp [eraseFlow])
  simp only [authenticate]
  rw [h1, h2]

/-- Characterization of the critical section when the double-check read finds
no record and a user id resolves: it performs exactly the initiate dispatch
on the `trackAction` result. -/
theorem criticalSection_initiate (client : AuthsignalClient) (tmpl : String)
    (req : AsgardeoAuthRequest) (ip ua : Option String) (s : MemoryFlowStore)
    (now : Nat) (u : String)
    (hflows : s.flows req.flowId = none)
    (huser : resolveUserId req = some u) :
    criticalSection client tmpl req ip ua s now =
      (match client.trackAction (buildTrackInput req u tmpl ip ua) with
       | none => ⟨200, .error "INTERNAL_ERROR" "Internal adapter error", s, 1, 0⟩
       | some trackResult =>
         match mapTrackState trackResult.state trackResult with
         | .pending redirectUrl =>
           match trackResult.idempotencyKey with
           | none => ⟨200,
               .error "AUTHSIGNAL_ERROR" "Missing idempotency key from Authsignal",
               s, 1, 0⟩
           | some idempotencyKey =>
             if !canRedirect req then
               ⟨200, .error "REDIRECT_NOT_ALLOWED" "Redirect operation not allowed",
                 s, 1, 0⟩
             else
               ⟨200, .incomplete redirectUrl,
                 s.save (.pending ⟨req.flowId, u,
                   buildResumeUrl tmpl req.flowId (extractTenantHint req),
                   extractTenantHint req, now, now, redirectUrl, idempotencyKey,
                   req.actionType.getD "login"⟩) now, 1, 0⟩
         | .success =>
           ⟨200, .success,
             s.save (.completed ⟨req.flowId, u,
               buildResumeUrl tmpl req.flowId (extractTenantHint req),
               extractTenantHint req, now, now, .SUCCESS, none⟩) now, 1, 0⟩
         | .failed reason =>
           ⟨200, .failed reason "Authsignal denied the action",
             s.save (.completed ⟨req.flowId, u,
               buildResumeUrl tmpl req.flowId (extractTenantHint req),
               extractTenantHint req, now, now, .FAILED, some reason⟩) now, 1, 0⟩
         | .unknown =>
           ⟨200, .error "AUTHSIGNAL_ERROR" "Unexpected response from Authsignal",
             s, 1, 0⟩) := by
  have hget := get_of_none s req.flowId now hflows
  simp only [criticalSection]
  rw [hget]
  simp only [huser]

/-- On a store with no record and no live lock for the flow id, the handler
acquires the lock and runs the critical section, then releases. -/
theorem authenticate_fresh (client : AuthsignalClient) (tmpl : String)
    (rlf : Bool) (req : AsgardeoAuthRequest) (ip ua : Option String)
    (s : MemoryFlowStore) (now : Nat)
    (hflows : s.flows req.flowId = none)
    (hlock : lockFree s req.flowId now = true) :
    authenticate client tmpl rlf req ip ua s now =
      (let s2 : MemoryFlowStore :=
        { s with
          locks := fun k =>
            if k = req.flowId then some (ownerToken s.lockCounter, now + LOCK_TTL_MS)
            else s.locks k
          lockCounter := s.lockCounter + 1 }
       let result := criticalSection client tmpl req ip ua s2 now
       if rlf then result
       else { result with
        store := result.store.releaseLock req.flowId (ownerToken s.lockCounter) }) := by
  have hget := get_of_none s req.flowId now hflows
  have hacq := acquireLock_of_free s req.flowId LOCK_TTL_MS now hlock
  simp only [authenticate]
  rw [hget, hacq]

theorem lockDeniedBranch_trackCalls (client : AuthsignalClient)
    (req : AsgardeoAuthRequest) (st : MemoryFlowStore) (now : Nat) :
    (lockDeniedBranch client req st now).trackCalls = 0 := by
  unfold lockDeniedBranch
  rcases hget : st.get req.flowId now with ⟨s1, ex⟩
  cases ex with
  | none => rfl
  | some flow => cases flow <;> rfl

theorem criticalSection_trackCalls_le_one (client : AuthsignalClient)
    (tmpl : String) (req : AsgardeoAuthRequest) (ip ua : Option String)
    (s : MemoryFlowStore) (now : Nat) :
    (criticalSection client tmpl req ip ua s now).trackCalls ≤ 1 := by
  simp only [criticalSection]
  rcases hget : s.get req.flowId now with ⟨s1, ex⟩
  cases ex with
  | some flow => simp [handleFoundFlow_trackCalls]
  | none =>
    cases hu : resolveUserId req with
    | none => simp [hu]
    | some u =>
      cases ht : client.trackAction (buildTrackInput req u tmpl ip ua) with
      | none => simp [hu, ht]
      | some tr =>
        cases hm : mapTrackState tr.state tr <;> simp [hu, ht, hm]
        case pending url =>
          cases hk : tr.idempotencyKey <;> simp [hk]
          split <;> simp

theorem authenticate_trackCalls_le_one (client : AuthsignalClient) (tmpl : String)
    (rlf : Bool) (req : AsgardeoAuthRequest) (ip ua : Option String)
    (s : MemoryFlowStore) (now : Nat) :
    (authenticate client tmpl rlf req ip ua s now).trackCalls ≤ 1 := by
  simp only [authenticate]
  rcases hget : s.get req.flowId now with ⟨s1, ex⟩
  cases ex with
  | some flow => simp [handleFoundFlow_trackCalls]
  | none =>
    rcases hacq : s1.acquireLock req.flowId LOCK_TTL_MS now with ⟨s2, ow⟩
    cases ow with
    | none => simp [lockDeniedBranch_trackCalls]
    | some owner =>
      have h := criticalSection_trackCalls_le_one client tmpl req ip ua s2 now
      by_cases hr : rlf <;> simp [hr, h]

theorem acquireLock_some_inv (s : MemoryFlowStore) (f : String) (t now : Nat)
    (s2 : MemoryFlowStore) (o : String)
    (h : s.acquireLock f t now = (s2, some o)) :
    s2.locks f = some (o, now + t) := by
  unfold MemoryFlowStore.acquireLock at h
  cases hl : s.locks f <;> rw [hl] at h
  case none =>
    simp only [Prod.mk.injEq, Option.some.injEq] at h
    obtain ⟨h1, h2⟩ := h
    subst h2
    rw [← h1]
    simp
  case some pair =>
    obtain ⟨o', e⟩ := pair
    by_cases he : e > now
    · simp [he] at h
    · simp only [gt_iff_lt, he, if_neg, ite_false, if_false, Prod.mk.injEq,
        Option.some.injEq] at h
      obtain ⟨h1, h2⟩ := h
      subst h2
      rw [← h1]
      simp

theorem pending_states_disjoint (x : String)
    (h : PENDING_STATES.contains x = true) :
    SUCCESS_STATES.contains x = false ∧ FAILED_STATES.contains x = false := by
  have hx : x ∈ PENDING_STATES := by simpa using h
  simp only [PENDING_STATES, List.mem_cons, List.mem_singleton,
    List.not_mem_nil, or_false] at hx
  rcases hx with h | h <;> subst h <;> decide

theorem criticalSection_locks (client : AuthsignalClient) (tmpl : String)
    (req : AsgardeoAuthRequest) (ip ua : Option String) (s : MemoryFlowStore)
    (now : Nat) :
    ((criticalSection client tmpl req ip ua s now).store).locks = s.locks := by
  simp only [criticalSection]
  rcases hget : s.get req.flowId now with ⟨s1, ex⟩
  have hs1 : s1.locks = s.locks := by
    rw [show s1 = (s.get req.flowId now).1 from by rw [hget]]
    exact get_fst_locks s req.flowId now
  cases ex with
  | some flow => rw [handleFoundFlow_locks]; exact hs1
  | none =>
    cases hu : resolveUserId req with
    | none => simpa [hu] using hs1
    | some u =>
      cases ht : client.trackAction (buildTrackInput req u tmpl ip ua) with
      | none => simpa [hu, ht] using hs1
      | some tr =>
        cases hm : mapTrackState tr.state tr
        case pending url =>
          cases hk : tr.idempotencyKey
          · simpa [hu, ht, hm, hk] using hs1
          · by_cases hr : canRedirect req <;>
              simpa [hu, ht, hm, hk, hr, save_locks] using hs1
        case success => simpa [hu, ht, hm, save_locks] using hs1
        case failed reason => simpa [hu, ht, hm, save_locks] using hs1
        case unknown => simpa [hu, ht, hm] using hs1

/-- The normalisation of `mapTrackState` for a state outside both terminal
vocabularies: it is the pending/unknown dispatch on `response.url`. -/
theorem mapTrackState_not_terminal (state : String) (tr : AuthsignalTrackResult)
    (hsucc : SUCCESS_STATES.contains (strToUpper state) = false)
    (hfail : FAILED_STATES.contains (strToUpper state) = false) :
    mapTrackState state tr =
      (match tr.url with
       | some url =>
         if PENDING_STATES.contains (strToUpper state) then .pending url
         else .unknown
       | none => .unknown) := by
  unfold mapTrackState
  have h1 : strToUpper state ∉ SUCCESS_STATES := by simpa using hsucc
  have h2 : strToUpper state ∉ FAILED_STATES := by simpa using hfail
  simp [h1, h2]

theorem authenticate_fresh_tracks_once (client : AuthsignalClient) (tmpl : String)
    (rlf : Bool) (req : AsgardeoAuthRequest) (ip ua : Option String)
    (s : MemoryFlowStore) (now : Nat) (u : String)
    (hflows : s.flows req.flowId = none)
    (hlock : lockFree s req.flowId now = true)
    (huser : resolveUserId req = some u) :
    (authenticate client tmpl rlf req ip ua s now).trackCalls = 1 := by
  rw [authenticate_fresh client tmpl rlf req ip ua s now hflows hlock]
  simp only []
  rw [criticalSection_initiate client tmpl req ip ua
    { s with
      locks := fun k =>
        if k = req.flowId then some (ownerToken s.lockCounter, now + LOCK_TTL_MS)
        else s.locks k
      lockCounter := s.lockCounter + 1 } now u hflows huser]
  cases ht : client.trackAction (buildTrackInput req u tmpl ip ua) with
  | none => by_cases hr : rlf <;> simp [ht, hr]
  | some tr =>
    cases hm : mapTrackState tr.state tr
    case pending url =>
      cases hk : tr.idempotencyKey with
      | none => by_cases hr : rlf <;> simp [ht, hm, hk, hr]
      | some key =>
        by_cases hcr : canRedirect req <;> by_cases hr : rlf <;>
          simp [ht, hm, hk, hcr, hr]
    case success => by_cases hr : rlf <;> simp [ht, hm, hr]
    case failed reason => by_cases hr : rlf <;> simp [ht, hm, hr]
    case unknown => by_cases hr : rlf <;> simp [ht, hm, hr]

/-! ## C4: unrecognized external states (corrected) -/

/-- C4 counterexample: `"SOMETHING_NEW"` is outside both vocabularies, yet
on the initiate path (fresh flow, lock free, user resolvable, `trackAction`
returning that state with a url and an idempotency key) the handler answers
an `AUTHSIGNAL_ERROR` ERROR envelope — it treats the unknown state as an
error, not as "unknown/still-pending" as the claim states for both paths. -/
theorem C4_counterexample :
    SUCCESS_STATES.contains (strToUpper "SOMETHING_NEW") = false ∧
    FAILED_STATES.contains (strToUpper "SOMETHING_NEW") = false ∧
    (authenticate
        ⟨fun _ => some ⟨"SOMETHING_NEW", some "k1", some "https://x/1", none⟩,
         fun _ _ _ => none⟩ "t" false
        ⟨none, "f", none, none, some ⟨some ⟨some "u", none, none, []⟩, [], none⟩, []⟩
        none none (MemoryFlowStore.empty 900) 0).response =
      .error "AUTHSIGNAL_ERROR" "Unexpected response from Authsignal" := by
  refine ⟨by decide, by decide, by decide⟩

/-- C4 (amended): a state outside both vocabularies is never mapped to the
success or failure buckets.  `mapTrackState` classifies it as pending (when
in the pending vocabulary with a url) or unknown; on the re-entry path such
a state leaves the flow Pending and returns the stored INCOMPLETE redirect;
on the initiate path the response is never SUCCESS or FAILED and no
Completed record is persisted (an unknown classification yields an
`AUTHSIGNAL_ERROR` envelope rather than a still-pending response). -/
theorem C4_unknown_state_policy (state : String)
    (hsucc : SUCCESS_STATES.contains (strToUpper state) = false)
    (hfail : FAILED_STATES.contains (strToUpper state) = false) :
    (∀ tr : AuthsignalTrackResult,
      mapTrackState state tr ≠ .success ∧
      (∀ r, mapTrackState state tr ≠ .failed r) ∧
      mapTrackState state tr =
        (match tr.url with
         | some url =>
           if PENDING_STATES.contains (strToUpper state) then .pending url
           else .unknown
         | none => .unknown)) ∧
    (∀ (client : AuthsignalClient) (p : PendingFlowRecord)
        (req : AsgardeoAuthRequest) (st : MemoryFlowStore) (now : Nat),
      client.getAction p.userId p.action p.idempotencyKey = some state →
      canRedirect req = true →
      resolvePendingFlow client p req st now =
        (.incomplete p.redirectUrl,
          st.save (.pending { p with updatedAt := now }) now)) ∧
    (∀ (client : AuthsignalClient) (tmpl : String) (rlf : Bool)
        (req : AsgardeoAuthRequest) (ip ua : Option String)
        (s : MemoryFlowStore) (now : Nat) (u : String)
        (tr : AuthsignalTrackResult),
      s.flows req.flowId = none → lockFree s req.flowId now = true →
      resolveUserId req = some u →
      client.trackAction (buildTrackInput req u tmpl ip ua) = some tr →
      tr.state = state →
      (authenticate client tmpl rlf req ip ua s now).response ≠ .success ∧
      (∀ a b,
        (authenticate client tmpl rlf req ip ua s now).response ≠ .failed a b) ∧
      noCompletedRecord (authenticate client tmpl rlf req ip ua s now).store
        req.flowId) := by
  have hmap := fun tr => mapTrackState_not_terminal state tr hsucc hfail
  refine ⟨?_, ?_, ?_⟩
  · intro tr
    rw [hmap tr]
    cases hurl : tr.url with
    | none => simp [hurl]
    | some url =>
      try rw [hurl]
      refine ⟨?_, ?_, rfl⟩ <;>
        by_cases hp : strToUpper state ∈ PENDING_STATES <;> simp [hp]
  · intro client p req st now hga hred
    unfold resolvePendingFlow
    rw [hga]
    have h1 : strToUpper state ∉ SUCCESS_STATES := by simpa using hsucc
    have h2 : strToUpper state ∉ FAILED_STATES := by simpa using hfail
    simp [h1, h2, hred]
  · intro client tmpl rlf req ip ua s now u tr hflows hlock huser htrack hstate
    rw [authenticate_fresh client tmpl rlf req ip ua s now hflows hlock]
    simp only []
    rw [criticalSection_initiate client tmpl req ip ua
      { s with
        locks := fun k =>
          if k = req.flowId then some (ownerToken s.lockCounter, now + LOCK_TTL_MS)
          else s.locks k
        lockCounter := s.lockCounter + 1 } now u hflows huser]
    simp only [htrack]
    subst hstate
    rw [hmap tr]
    cases hurl : tr.url
    case none =>
      try simp only [hurl]
      by_cases hr : rlf <;>
        simp [hr, noCompletedRecord, releaseLock_flows, hflows]
    case some url =>
      try simp only [hurl]
      by_cases hp : PENDING_STATES.contains (strToUpper tr.state) = true
      · simp only [hp, if_true]
        cases hk : tr.idempotencyKey
        · simp only [hk]
          by_cases hr : rlf <;>
            simp [hr, noCompletedRecord, releaseLock_flows, hflows]
        · simp only [hk]
          by_cases hcr : canRedirect req
          · by_cases hr : rlf <;>
              simp [hr, hcr, noCompletedRecord, releaseLock_flows,
                MemoryFlowStore.save, FlowRecord.flowId]
          · by_cases hr : rlf <;>
              simp [hr, hcr, noCompletedRecord, releaseLock_flows, hflows]
      · simp only [hp]
        by_cases hr : rlf <;>
          simp [hr, noCompletedRecord, releaseLock_flows, hflows]

theorem C4_unknown_state_policy_witness :
    mapTrackState "SOMETHING_NEW" ⟨"SOMETHING_NEW", none, none, none⟩ ≠
      MappedTrackState.success :=
  ((C4_unknown_state_policy "SOMETHING_NEW" (by decide) (by decide)).1
    ⟨"SOMETHING_NEW", none, none, none⟩).1

/-! ## C10: malformed pending track responses on the initiate path -/

/-- C10: on the initiate path, a track response whose state is in the
pending vocabulary but lacks a url is classified unknown and answered with
the `AUTHSIGNAL_ERROR` "Unexpected response" envelope; one with a url but no
idempotency key is answered with the `AUTHSIGNAL_ERROR` "Missing idempotency
key" envelope.  In both cases no flow record is persisted and the lock is
released, so the next authenticate call re-runs initiation (its
`trackAction` count is 1). -/
theorem C10_initiate_malformed_track (client : AuthsignalClient) (tmpl : String)
    (req : AsgardeoAuthRequest) (ip ua : Option String) (s : MemoryFlowStore)
    (now : Nat) (u : String) (tr : AuthsignalTrackResult)
    (hflows : s.flows req.flowId = none)
    (hlock : lockFree s req.flowId now = true)
    (huser : resolveUserId req = some u)
    (htrack : client.trackAction (buildTrackInput req u tmpl ip ua) = some tr)
    (hpending : PENDING_STATES.contains (strToUpper tr.state) = true)
    (hmalformed : tr.url = none ∨ (tr.idempotencyKey = none ∧ tr.url ≠ none)) :
    (tr.url = none →
      (authenticate client tmpl false req ip ua s now).response =
        .error "AUTHSIGNAL_ERROR" "Unexpected response from Authsignal") ∧
    (tr.idempotencyKey = none → ∀ url, tr.url = some url →
      (authenticate client tmpl false req ip ua s now).response =
        .error "AUTHSIGNAL_ERROR" "Missing idempotency key from Authsignal") ∧
    (authenticate client tmpl false req ip ua s now).store.flows req.flowId
      = none ∧
    (authenticate client tmpl false req ip ua s now).store.locks req.flowId
      = none ∧
    (∀ client2 : AuthsignalClient,
      (authenticate client2 tmpl false req ip ua
        (authenticate client tmpl false req ip ua s now).store now).trackCalls
        = 1) := by
  obtain ⟨hs, hf⟩ := pending_states_disjoint _ hpending
  have hmap := mapTrackState_not_terminal tr.state tr hs hf
  have hrun : authenticate client tmpl false req ip ua s now =
      (let s2 : MemoryFlowStore :=
        { s with
          locks := fun k =>
            if k = req.flowId then some (ownerToken s.lockCounter, now + LOCK_TTL_MS)
            else s.locks k
          lockCounter := s.lockCounter + 1 }
       let result := criticalSection client tmpl req ip ua s2 now
       { result with
          store := result.store.releaseLock req.flowId (ownerToken s.lockCounter) })
      := by
    rw [authenticate_fresh client tmpl false req ip ua s now hflows hlock]
    simp
  rw [hrun]
  simp only []
  rw [criticalSection_initiate client tmpl req ip ua
    { s with
      locks := fun k =>
        if k = req.flowId then some (ownerToken s.lockCounter, now + LOCK_TTL_MS)
        else s.locks k
      lockCounter := s.lockCounter + 1 } now u hflows huser]
  simp only [htrack]
  rw [hmap]
  have hrelease : ∀ st : MemoryFlowStore,
      st.locks req.flowId = some (ownerToken s.lockCounter, now + LOCK_TTL_MS) →
      (st.releaseLock req.flowId (ownerToken s.lockCounter)).locks req.flowId
        = none := by
    intro st hst
    simp [MemoryFlowStore.releaseLock, hst]
  cases hurl : tr.url
  case none =>
    simp only [hurl]
    refine ⟨fun _ => trivial, ?_, ?_, ?_, ?_⟩
    · intro _ url hu; exact absurd hu (by simp)
    · simpa [releaseLock_flows] using hflows
    · exact hrelease _ (by simp)
    · intro client2
      refine authenticate_fresh_tracks_once client2 tmpl false req ip ua _ now u
        ?_ ?_ huser
      · simpa [releaseLock_flows] using hflows
      · unfold lockFree
        rw [hrelease _ (by simp)]
  case some url =>
    try simp only [hurl]
    rcases hmalformed with hmal | ⟨hkey, _⟩
    · rw [hmal] at hurl; exact absurd hurl (by simp)
    · simp only [hpending, if_true, hkey]
      refine ⟨?_, ?_, ?_, ?_, ?_⟩
      · intro hu; simp [hurl] at hu
      · intros; first | rfl | trivial
      · simpa [releaseLock_flows] using hflows
      · exact hrelease _ (by simp)
      · intro client2
        refine authenticate_fresh_tracks_once client2 tmpl false req ip ua _ now u
          ?_ ?_ huser
        · simpa [releaseLock_flows] using hflows
        · unfold lockFree
          rw [hrelease _ (by simp)]

theorem C10_initiate_malformed_track_witness :
    (authenticate
        ⟨fun _ => some ⟨"CHALLENGE_REQUIRED", none, some "https://x/1", none⟩,
         fun _ _ _ => none⟩ "t" false
        ⟨none, "f", none, none, some ⟨some ⟨some "u", none, none, []⟩, [], none⟩, []⟩
        none none (MemoryFlowStore.empty 900) 0).response =
      .error "AUTHSIGNAL_ERROR" "Missing idempotency key from Authsignal" :=
  ((C10_initiate_malformed_track
    ⟨fun _ => some ⟨"CHALLENGE_REQUIRED", none, some "https://x/1", none⟩ ,
     fun _ _ _ => none⟩ "t"
    ⟨none, "f", none, none, some ⟨some ⟨some "u", none, none, []⟩, [], none⟩, []⟩
    none none (MemoryFlowStore.empty 900) 0 "u"
    ⟨"CHALLENGE_REQUIRED", none, some "https://x/1", none⟩
    (by decide) (by decide) (by decide) (by decide) (by decide)
    (Or.inr ⟨rfl, by decide⟩)).2.1 rfl "https://x/1" rfl)

/-! ## C6: lock-denied branch -/

/-- C6: when the store has no record for the flowId but a live lock is held
by someone else, lock acquisition is denied and the handler runs the
lock-denied branch: it re-reads the store; with the record still absent it
answers the `FLOW_LOCKED` ERROR envelope inside an HTTP 200 — and in
general the branch handles a record found on re-read exactly like a record
found on first read, and always answers with status 200, never 5xx. -/
theorem C6_lock_denied (client : AuthsignalClient) (tmpl : String) (rlf : Bool)
    (req : AsgardeoAuthRequest) (ip ua : Option String) (s : MemoryFlowStore)
    (now : Nat) (o : String) (e : Nat)
    (hflows : s.flows req.flowId = none)
    (hlock : s.locks req.flowId = some (o, e)) (hlive : e > now) :
    authenticate client tmpl rlf req ip ua s now =
      lockDeniedBranch client req s now ∧
    (authenticate client tmpl rlf req ip ua s now).response =
      .error "FLOW_LOCKED" "Flow is being processed, retry shortly" ∧
    (authenticate client tmpl rlf req ip ua s now).status = 200 ∧
    (authenticate client tmpl rlf req ip ua s now).trackCalls = 0 ∧
    (authenticate client tmpl rlf req ip ua s now).getActionCalls = 0 ∧
    (∀ (st : MemoryFlowStore) (flow : FlowRecord),
      (st.get req.flowId now).2 = some flow →
      lockDeniedBranch client req st now =
        handleFoundFlow client flow req (st.get req.flowId now).1 now) ∧
    (∀ st : MemoryFlowStore, (lockDeniedBranch client req st now).status = 200)
    := by
  have hauth : authenticate client tmpl rlf req ip ua s now =
      lockDeniedBranch client req s now := by
    simp only [authenticate]
    rw [get_of_none s req.flowId now hflows,
      acquireLock_of_held s req.flowId LOCK_TTL_MS now o e hlock hlive]
  have hbranch : lockDeniedBranch client req s now =
      ⟨200, .error "FLOW_LOCKED" "Flow is being processed, retry shortly",
        s, 0, 0⟩ := by
    unfold lockDeniedBranch
    rw [get_of_none s req.flowId now hflows]
  refine ⟨hauth, ?_, ?_, ?_, ?_, ?_, ?_⟩
  · rw [hauth, hbranch]
  · rw [hauth, hbranch]
  · rw [hauth, hbranch]
  · rw [hauth, hbranch]
  · intro st flow hex
    unfold lockDeniedBranch
    rcases hget : st.get req.flowId now with ⟨s1, ex⟩
    rw [hget] at hex
    simp only at hex
    subst hex
    cases flow <;> rfl
  · intro st
    unfold lockDeniedBranch
    rcases hget : st.get req.flowId now with ⟨s1, ex⟩
    cases ex with
    | none => rfl
    | some flow => cases flow <;> rfl

theorem C6_lock_denied_witness :
    (authenticate ⟨fun _ => none, fun _ _ _ => none⟩ "t" false
        ⟨none, "f", none, none, none, []⟩ none none
        (MemoryFlowStore.mk 900 (fun _ => none)
          (fun k => if k = "f" then some ("other-owner", 100) else none) 0)
        0).response =
      .error "FLOW_LOCKED" "Flow is being processed, retry shortly" :=
  (C6_lock_denied ⟨fun _ => none, fun _ _ _ => none⟩ "t" false
    ⟨none, "f", none, none, none, []⟩ none none
    (MemoryFlowStore.mk 900 (fun _ => none)
      (fun k => if k = "f" then some ("other-owner", 100) else none) 0)
    0 "other-owner" 100 (by decide) (by decide) (by decide)).2.1

/-! ## C8: lock always released, exceptions become structured errors -/

/-- C8: (1) with a working `releaseLock`, the handler never leaks the lock:
after any call the lock entry for the flowId is either exactly what it was
before or deleted; (2) a throwing `releaseLock` is absorbed — the response
and status are identical whether or not release fails; (3) a `trackAction`
throw is converted by the top-level catch into the `INTERNAL_ERROR` ERROR
envelope in an HTTP 200 response, with the lock released. -/
theorem C8_lock_release_and_catch :
    (∀ (client : AuthsignalClient) (tmpl : String) (req : AsgardeoAuthRequest)
       (ip ua : Option String) (s : MemoryFlowStore) (now : Nat),
      (authenticate client tmpl false req ip ua s now).store.locks req.flowId =
          s.locks req.flowId ∨
      (authenticate client tmpl false req ip ua s now).store.locks req.flowId =
          none) ∧
    (∀ (client : AuthsignalClient) (tmpl : String) (req : AsgardeoAuthRequest)
       (ip ua : Option String) (s : MemoryFlowStore) (now : Nat),
      (authenticate client tmpl true req ip ua s now).response =
        (authenticate client tmpl false req ip ua s now).response ∧
      (authenticate client tmpl true req ip ua s now).status =
        (authenticate client tmpl false req ip ua s now).status) ∧
    (∀ (client : AuthsignalClient) (tmpl : String) (req : AsgardeoAuthRequest)
       (ip ua : Option String) (s : MemoryFlowStore) (now : Nat) (u : String),
      s.flows req.flowId = none → lockFree s req.flowId now = true →
      resolveUserId req = some u →
      client.trackAction (buildTrackInput req u tmpl ip ua) = none →
      (authenticate client tmpl false req ip ua s now).response =
        .error "INTERNAL_ERROR" "Internal adapter error" ∧
      (authenticate client tmpl false req ip ua s now).status = 200 ∧
      (authenticate client tmpl false req ip ua s now).store.locks req.flowId =
        none) := by
  refine ⟨?_, ?_, ?_⟩
  · intro client tmpl req ip ua s now
    simp only [authenticate]
    rcases hget : s.get req.flowId now with ⟨s1, ex⟩
    have hs1 : s1.locks = s.locks := by
      rw [show s1 = (s.get req.flowId now).1 from by rw [hget]]
      exact get_fst_locks s req.flowId now
    cases ex with
    | some flow =>
      left
      rw [handleFoundFlow_locks, hs1]
    | none =>
      rcases hacq : s1.acquireLock req.flowId LOCK_TTL_MS now with ⟨s2, ow⟩
      cases ow with
      | none =>
        left
        have hd : (s1.acquireLock req.flowId LOCK_TTL_MS now).2 = none := by
          rw [hacq]
        have hs2 : s2 = s1 := by
          have h := acquireLock_denied_eq s1 req.flowId LOCK_TTL_MS now hd
          rw [hacq] at h
          exact h
        rw [lockDeniedBranch_locks, hs2, hs1]
      | some owner =>
        right
        have howner : s2.locks req.flowId = some (owner, now + LOCK_TTL_MS) :=
          acquireLock_some_inv s1 req.flowId LOCK_TTL_MS now s2 owner hacq
        have hcs := criticalSection_locks client tmpl req ip ua s2 now
        simp [MemoryFlowStore.releaseLock, hcs, howner]
  · intro client tmpl req ip ua s now
    simp only [authenticate]
    rcases hget : s.get req.flowId now with ⟨s1, ex⟩
    cases ex with
    | some flow => exact ⟨rfl, rfl⟩
    | none =>
      rcases hacq : s1.acquireLock req.flowId LOCK_TTL_MS now with ⟨s2, ow⟩
      cases ow with
      | none => exact ⟨rfl, rfl⟩
      | some owner => constructor <;> simp
  · intro client tmpl req ip ua s now u hflows hlock huser htrack
    rw [authenticate_fresh client tmpl false req ip ua s now hflows hlock]
    simp only []
    rw [criticalSection_initiate client tmpl req ip ua
      { s with
        locks := fun k =>
          if k = req.flowId then some (ownerToken s.lockCounter, now + LOCK_TTL_MS)
          else s.locks k
        lockCounter := s.lockCounter + 1 } now u hflows huser]
    simp only [htrack]
    refine ⟨by simp, by simp, ?_⟩
    simp [MemoryFlowStore.releaseLock]

theorem C8_lock_release_and_catch_witness :
    (authenticate ⟨fun _ => none, fun _ _ _ => none⟩ "t" false
        ⟨none, "f", none, none, some ⟨some ⟨some "u", none, none, []⟩, [], none⟩, []⟩
        none none (MemoryFlowStore.empty 900) 0).response =
      .error "INTERNAL_ERROR" "Internal adapter error" :=
  (C8_lock_release_and_catch.2.2 ⟨fun _ => none, fun _ _ _ => none⟩ "t"
    ⟨none, "f", none, none, some ⟨some ⟨some "u", none, none, []⟩, [], none⟩, []⟩
    none none (MemoryFlowStore.empty 900) 0 "u"
    (by decide) (by decide) (by decide) (by decide)).1

/-! ## C1: idempotent re-poll -/

theorem criticalSection_noUser (client : AuthsignalClient) (tmpl : String)
    (req : AsgardeoAuthRequest) (ip ua : Option String) (s : MemoryFlowStore)
    (now : Nat) (hflows : s.flows req.flowId = none)
    (huser : resolveUserId req = none) :
    criticalSection client tmpl req ip ua s now =
      ⟨200, .error "MISSING_USER" "No user identifier found in request",
        s, 0, 0⟩ := by
  have hget := get_of_none s req.flowId now hflows
  simp only [criticalSection]
  rw [hget]
  simp [huser]

/-- An INCOMPLETE response from a call that found no record implies the
caller allows redirects and an unexpired pending record carrying the
returned url was persisted for the flow id. -/
theorem authenticate_incomplete_inv_fresh (client : AuthsignalClient)
    (tmpl : String) (rlf : Bool) (req : AsgardeoAuthRequest)
    (ip ua : Option String) (s : MemoryFlowStore) (now : Nat) (url : String)
    (hflows : s.flows req.flowId = none)
    (h : (authenticate client tmpl rlf req ip ua s now).response =
      .incomplete url) :
    canRedirect req = true ∧
    ∃ q e, (authenticate client tmpl rlf req ip ua s now).store.flows req.flowId
        = some (.pending q, e) ∧ ¬ e < now ∧ q.redirectUrl = url := by
  by_cases hlock : lockFree s req.flowId now = true
  · rw [authenticate_fresh client tmpl rlf req ip ua s now hflows hlock] at h ⊢
    simp only [] at h ⊢
    cases hu : resolveUserId req with
    | none =>
      rw [criticalSection_noUser client tmpl req ip ua
        { s with
          locks := fun k =>
            if k = req.flowId then
              some (ownerToken s.lockCounter, now + LOCK_TTL_MS)
            else s.locks k
          lockCounter := s.lockCounter + 1 } now hflows hu] at h
      exfalso
      by_cases hr : rlf <;> simp [hr] at h
    | some u =>
      rw [criticalSection_initiate client tmpl req ip ua
        { s with
          locks := fun k =>
            if k = req.flowId then
              some (ownerToken s.lockCounter, now + LOCK_TTL_MS)
            else s.locks k
          lockCounter := s.lockCounter + 1 } now u hflows hu] at h ⊢
      cases ht : client.trackAction (buildTrackInput req u tmpl ip ua) with
      | none =>
        exfalso
        simp only [ht] at h
        by_cases hr : rlf <;> simp [hr] at h
      | some tr =>
        simp only [ht] at h ⊢
        cases hm : mapTrackState tr.state tr with
        | success =>
          exfalso
          simp only [hm] at h
          by_cases hr : rlf <;> simp [hr] at h
        | failed reason =>
          exfalso
          simp only [hm] at h
          by_cases hr : rlf <;> simp [hr] at h
        | unknown =>
          exfalso
          simp only [hm] at h
          by_cases hr : rlf <;> simp [hr] at h
        | pending url' =>
          simp only [hm] at h ⊢
          cases hk : tr.idempotencyKey with
          | none =>
            exfalso
            simp only [hk] at h
            by_cases hr : rlf <;> simp [hr] at h
          | some key =>
            simp only [hk] at h ⊢
            by_cases hcr : canRedirect req
            · have hurl : url' = url := by
                by_cases hr : rlf
                · rw [if_pos hr, if_neg (by simp [hcr])] at h
                  simpa using h
                · rw [if_neg hr] at h
                  simp only [] at h
                  rw [if_neg (by simp [hcr])] at h
                  simpa using h
              refine ⟨hcr, ⟨req.flowId, u,
                buildResumeUrl tmpl req.flowId (extractTenantHint req),
                extractTenantHint req, now, now, url', key,
                req.actionType.getD "login"⟩, now + s.ttlSeconds * 1000, ?_,
                by omega, hurl⟩
              by_cases hr : rlf <;>
                simp [hr, hcr, releaseLock_flows, MemoryFlowStore.save,
                  FlowRecord.flowId]
            · exfalso
              by_cases hr : rlf <;> simp [hr, hcr] at h
  · exfalso
    have hl : lockFree s req.flowId now = false := by
      simpa using hlock
    unfold lockFree at hl
    cases hlk : s.locks req.flowId with
    | none => rw [hlk] at hl; simp at hl
    | some pair =>
      obtain ⟨o, e'⟩ := pair
      rw [hlk] at hl
      simp only [Bool.not_eq_false'] at hl
      have hlive : e' > now := by simpa using hl
      simp only [authenticate] at h
      rw [get_of_none s req.flowId now hflows,
        acquireLock_of_held s req.flowId LOCK_TTL_MS now o e' hlk hlive] at h
      unfold lockDeniedBranch at h
      rw [get_of_none s req.flowId now hflows] at h
      simp at h

theorem authenticate_incomplete_inv (client : AuthsignalClient) (tmpl : String)
    (rlf : Bool) (req : AsgardeoAuthRequest) (ip ua : Option String)
    (s : MemoryFlowStore) (now : Nat) (url : String)
    (h : (authenticate client tmpl rlf req ip ua s now).response =
      .incomplete url) :
    canRedirect req = true ∧
    ∃ q e, (authenticate client tmpl rlf req ip ua s now).store.flows req.flowId
        = some (.pending q, e) ∧ ¬ e < now ∧ q.redirectUrl = url := by
  cases hrec : s.flows req.flowId with
  | none =>
    exact authenticate_incomplete_inv_fresh client tmpl rlf req ip ua s now url
      hrec h
  | some pair =>
    obtain ⟨r, e⟩ := pair
    by_cases hexp : e < now
    · rw [authenticate_expired_restart client tmpl rlf req ip ua s now r e hrec
        hexp] at h ⊢
      exact authenticate_incomplete_inv_fresh client tmpl rlf req ip ua _ now url
        (by simp [eraseFlow]) h
    · have hget := get_of_unexpired s req.flowId now r e hrec hexp
      simp only [authenticate] at h ⊢
      rw [hget] at h ⊢
      cases r with
      | completed c =>
        exfalso
        cases hc : c.outcome <;>
          simp [handleFoundFlow, replayCompleted, hc] at h
      | pending p =>
        simp only [handleFoundFlow] at h ⊢
        have hres := resolvePendingFlow_incomplete_inv client p req s now url
          (by simpa using h)
        obtain ⟨hurl, hred, hstore⟩ := hres
        refine ⟨hred, ?_⟩
        simp only [hstore]
        by_cases hk : req.flowId = p.flowId
        · refine ⟨{ p with updatedAt := now }, now + s.ttlSeconds * 1000, ?_,
            by omega, by simpa using hurl.symm⟩
          simp [MemoryFlowStore.save, FlowRecord.flowId, hk]
        · refine ⟨p, e, ?_, hexp, hurl.symm⟩
          simp [MemoryFlowStore.save, FlowRecord.flowId, hk, hrec]

/-- C1: once a call answers INCOMPLETE for a flowId, an immediately repeated
call (same clock, external state unchanged — the status poll throws or
reports a still-unrecognized state) finds the persisted Pending record,
calls only `getAction` (exactly once, `trackAction` not at all), and returns
the same INCOMPLETE payload with the same redirect url; across both calls
`trackAction` is invoked at most once. -/
theorem C1_idempotent_repoll (client : AuthsignalClient) (tmpl : String)
    (rlf : Bool) (req : AsgardeoAuthRequest) (ip ua : Option String)
    (s : MemoryFlowStore) (now : Nat) (url : String)
    (h1 : (authenticate client tmpl rlf req ip ua s now).response =
      .incomplete url)
    (h2 : ∀ u a k, pollStillPending (client.getAction u a k) = true) :
    (authenticate client tmpl rlf req ip ua
        (authenticate client tmpl rlf req ip ua s now).store now).response =
      .incomplete url ∧
    (authenticate client tmpl rlf req ip ua s now).trackCalls +
      (authenticate client tmpl rlf req ip ua
        (authenticate client tmpl rlf req ip ua s now).store now).trackCalls
      ≤ 1 ∧
    (authenticate client tmpl rlf req ip ua
      (authenticate client tmpl rlf req ip ua s now).store now).trackCalls = 0 ∧
    (authenticate client tmpl rlf req ip ua
      (authenticate client tmpl rlf req ip ua s now).store now).getActionCalls
      = 1 := by
  obtain ⟨hred, q, e, hq, he, hurl⟩ :=
    authenticate_incomplete_inv client tmpl rlf req ip ua s now url h1
  have hrun2 := authenticate_pending_repoll client tmpl rlf req ip ua
    (authenticate client tmpl rlf req ip ua s now).store now q e hq he
    (h2 _ _ _) hred
  rw [hrun2]
  have htc := authenticate_trackCalls_le_one client tmpl rlf req ip ua s now
  exact ⟨by rw [hurl], by simpa using htc, rfl, rfl⟩

theorem C1_idempotent_repoll_witness :
    (authenticate
        ⟨fun _ => some ⟨"CHALLENGE_REQUIRED", some "k1", some "https://x/1", none⟩,
         fun _ _ _ => some "CHALLENGE_REQUIRED"⟩ "t" false
        ⟨none, "f", none, none, some ⟨some ⟨some "u", none, none, []⟩, [], none⟩, []⟩
        none none
        (authenticate
          ⟨fun _ => some ⟨"CHALLENGE_REQUIRED", some "k1", some "https://x/1", none⟩,
           fun _ _ _ => some "CHALLENGE_REQUIRED"⟩ "t" false
          ⟨none, "f", none, none, some ⟨some ⟨some "u", none, none, []⟩, [], none⟩,
            []⟩
          none none (MemoryFlowStore.empty 900) 1000).store
        1000).response = .incomplete "https://x/1" :=
  (C1_idempotent_repoll
    ⟨fun _ => some ⟨"CHALLENGE_REQUIRED", some "k1", some "https://x/1", none⟩,
     fun _ _ _ => some "CHALLENGE_REQUIRED"⟩ "t" false
    ⟨none, "f", none, none, some ⟨some ⟨some "u", none, none, []⟩, [], none⟩, []⟩
    none none (MemoryFlowStore.empty 900) 1000 "https://x/1"
    (by decide)
    (fun _ _ _ => show pollStillPending (some "CHALLENGE_REQUIRED") = true by
      decide)).1

end Authsignal
